import Mathlib

/-!
# Verification of the sharrow diagram builder (`sharrow/viz.py`)

This file gives a shallow embedding of `make_graph` from `sharrow/viz.py`
and proves or refutes the specified properties of the diagram builder.

Modelling conventions:

* A `Relationship` carries the five string fields of the source's
  relationship value (`parent_data`, `parent_name`, `child_data`,
  `child_name`, `indexing`).
* The data tree (`datatree` argument of `make_graph`) is modelled by the
  interface the builder consumes: an iterable of node names
  (`datatree._graph.nodes`), an iterable of edges each already resolved to
  its `Relationship` (the source calls `datatree._get_relationship(e)` for
  every edge `e`; that resolution lives outside `viz.py` and is modelled
  as always succeeding), a partial mapping from node name to the ordered
  dimension list of its subspace (`datatree.subspaces[k].dims`), and an
  optional root node name (`datatree.root_node_name`; `none` models a
  falsy Python value).
* Python `dict` (the local `g_nodes`) is modelled by an insertion-ordered
  association list.  Python `set` (each node's `vars`) is modelled by a
  duplicate-free list in insertion order; the *contents* of the list are
  exactly the contents of the Python set, while Python fixes no iteration
  order for a set of strings across processes — order-dependence of the
  output is treated explicitly where a claim is about determinism.
* A Python `KeyError` (from `datatree.subspaces[k]` or `g_nodes[k]`) is
  modelled by `Except.error (BuildError.missingNode k)`.
* Presentation-only details of the emitted HTML-like label (fonts, colors,
  cell borders) are abstracted away; the structural content of the label —
  the title cell with its fixed port `f0`, which column headers are
  present, and the ordered attribute rows with their dim/var cell ports —
  is kept exactly.
-/

/-- A resolved relationship, as consumed by `make_graph`. -/
structure Relationship where
  parent_data : String
  parent_name : String
  child_data : String
  child_name : String
  indexing : String
deriving DecidableEq, Repr

/-- Modelled from the spec: the data-tree interface that `make_graph` reads.
The concrete `DataTree` class (`sharrow/relationships.py`) is not under
`src/`; the spec describes it as an iterable of node identifiers, an
iterable of edges each resolvable to a `Relationship`, a mapping from node
identifier to its subspace (ordered dimension names), and an optional root
node identifier. -/
structure DataTree where
  nodes : List String
  edges : List Relationship
  subspaces : List (String × List String)
  root_node_name : Option String
deriving DecidableEq, Repr

/-- `datatree.subspaces[k].dims`: partial lookup of a node's dimension list. -/
def lookupSubspace (t : DataTree) (k : String) : Option (List String) :=
  t.subspaces.lookup k

/-- The build failure raised on a missing mapping key (Python `KeyError`). -/
inductive BuildError where
  | missingNode (k : String)
deriving DecidableEq, Repr

/-- The per-node record held in the builder's `g_nodes` dict: the node's
subspace dimensions (a list) and the variables discovered on outgoing
relationships (a Python `set`, modelled as a duplicate-free list). -/
structure NodeInfo where
  dims : List String
  vars : List String
deriving DecidableEq, Repr

/-- One attribute row of a rendered node label.  `both d v` is a row with a
dimension cell (port `dim<d>`) and a variable cell (port `var<v>`);
`dimOnly` / `varOnly` have an empty borderless cell on the missing side. -/
inductive Row where
  | both (d v : String)
  | dimOnly (d : String)
  | varOnly (v : String)
deriving DecidableEq, Repr

/-- Which column-header row the label carries: the two-column
DIMENSIONS/VARIABLES header, the single-column DIMENSIONS header, or no
header (and hence no attribute rows) at all. -/
inductive LabelHeader where
  | dimsAndVars
  | dimsOnly
  | noHeader
deriving DecidableEq, Repr

/-- The structural content of a node's rendered label: the bold title cell
(which carries the fixed port `f0`), the column-header kind, and the
ordered attribute rows. -/
structure NodeLabel where
  title : String
  titlePort : String
  header : LabelHeader
  rows : List Row
deriving DecidableEq, Repr

/-- `itertools.zip_longest(dims, vars, fillvalue="")`. -/
def zipLongest : List String → List String → List (String × String)
  | [], vs => vs.map (fun v => ("", v))
  | d :: ds, [] => (d, "") :: zipLongest ds []
  | d :: ds, v :: vs => (d, v) :: zipLongest ds vs

/-- The row built from one `zip_longest` pair, following the source's branch
order: `if _d == "":` a variable-only row, `elif _v == "":` a
dimension-only row, else a row with both cells. -/
def mkRow (p : String × String) : Row :=
  if p.1 = "" then Row.varOnly p.2
  else if p.2 = "" then Row.dimOnly p.1
  else Row.both p.1 p.2

/-- The attribute rows of `node_label`: when both dims and vars are
non-empty, one row per `zip_longest` pair; when only dims are non-empty,
one dimension-only row per dim; otherwise no rows (in particular a node
with variables but no dimensions renders no attribute rows). -/
def labelRows (dims vars : List String) : List Row :=
  match dims, vars with
  | [], _ => []
  | d :: ds, [] => (d :: ds).map Row.dimOnly
  | d :: ds, v :: vs => (zipLongest (d :: ds) (v :: vs)).map mkRow

/-- The column-header row emitted by `node_label`, matching the same branch
structure as `labelRows`. -/
def labelHeader (dims vars : List String) : LabelHeader :=
  match dims, vars with
  | [], _ => LabelHeader.noHeader
  | _ :: _, [] => LabelHeader.dimsOnly
  | _ :: _, _ :: _ => LabelHeader.dimsAndVars

/-- `node_label(k, v)` from the source, as its structural content. -/
def node_label (k : String) (v : NodeInfo) : NodeLabel :=
  { title := k
    titlePort := "f0"
    header := labelHeader v.dims v.vars
    rows := labelRows v.dims v.vars }

/-- The port name of a dimension cell: `f"dim{_d}"`. -/
def dimPort (d : String) : String := "dim" ++ d

/-- The port name of a variable cell: `f"var{_v}"`. -/
def varPort (v : String) : String := "var" ++ v

/-- Character-escaped encoding of a string's characters, used to build an
injective key from the five fields of a relationship. -/
def encL : List Char → List Char
  | [] => ['.']
  | c :: cs => '!' :: c :: encL cs

/-- Modelled from the spec: the edge key `repr(rel)`.
`Relationship.__repr__` lives in `sharrow/relationships.py`, which is not
under `src/`; the spec requires "a stable, unique string derived from the
relationship's identity (must not collide even for parallel edges between
the same two nodes)", so the key is modelled as an injective rendering of
all five fields. -/
def Relationship.keyStr (r : Relationship) : String :=
  ⟨encL r.parent_data.data ++ (encL r.parent_name.data ++ (encL r.child_data.data ++
    (encL r.child_name.data ++ encL r.indexing.data)))⟩

/-- One emitted edge record of the output graph, with the attribute names
used by the source's `g.add_edge` call.  `tailport` is the spec's
`from_port` and `headport` its `to_port`; `arrowhead` is the arrow-style
marker (`"odiamond"` is graphviz's hollow diamond, `"normal"` the plain
arrowhead). -/
structure DiagramEdge where
  from_node : String
  to_node : String
  key : String
  tailport : String
  headport : String
  dir : String
  arrowhead : String
deriving DecidableEq, Repr

/-- One emitted node record of the output graph (`g.add_node`). -/
structure DiagramNode where
  id : String
  label : NodeLabel
  shape : String
deriving DecidableEq, Repr

/-- The output graph description: the nodes added by `g.add_node` in
insertion order and the edges added by `g.add_edge` in insertion order. -/
structure AGraph where
  nodes : List DiagramNode
  edges : List DiagramEdge
deriving DecidableEq, Repr

/-- The edge record emitted for one relationship (the `g.add_edge` call). -/
def edgeOfRel (r : Relationship) : DiagramEdge :=
  { from_node := r.parent_data
    to_node := r.child_data
    key := r.keyStr
    tailport := varPort r.parent_name
    headport := dimPort r.child_name
    dir := "forward"
    arrowhead := if r.indexing = "label" then "odiamond" else "normal" }

/-- Seed one entry of `g_nodes`: dims from the node's subspace, empty vars;
a missing subspace key is a `KeyError`. -/
def seedNode (t : DataTree) (k : String) : Except BuildError (String × NodeInfo) :=
  match lookupSubspace t k with
  | some ds => Except.ok (k, ⟨ds, []⟩)
  | none => Except.error (BuildError.missingNode k)

/-- The `for k in datatree._graph.nodes` loop seeding `g_nodes`, skipping
the root (`if k == datatree.root_node_name: continue`). -/
def seedOthers (t : DataTree) : List String → Except BuildError (List (String × NodeInfo))
  | [] => Except.ok []
  | k :: ks =>
    if t.root_node_name = some k then seedOthers t ks
    else
      match seedNode t k with
      | Except.error e => Except.error e
      | Except.ok n =>
        match seedOthers t ks with
        | Except.error e => Except.error e
        | Except.ok rest => Except.ok (n :: rest)

/-- Step 1 of `make_graph`: build `g_nodes`.  Nothing is seeded when the
graph has no nodes; otherwise the root (when designated) is seeded first,
then every other graph node in iteration order. -/
def initNodes (t : DataTree) : Except BuildError (List (String × NodeInfo)) :=
  if t.nodes.isEmpty then Except.ok []
  else
    match t.root_node_name with
    | none => seedOthers t t.nodes
    | some r =>
      match seedNode t r with
      | Except.error e => Except.error e
      | Except.ok n =>
        match seedOthers t t.nodes with
        | Except.error e => Except.error e
        | Except.ok rest => Except.ok (n :: rest)

/-- `g_nodes[k]["vars"].add(v)`: add `v` to the var set of the entry keyed
`k`; a missing key is a `KeyError`. -/
def addVar (m : List (String × NodeInfo)) (k v : String) :
    Except BuildError (List (String × NodeInfo)) :=
  match m with
  | [] => Except.error (BuildError.missingNode k)
  | (k', info) :: rest =>
    if k' = k then
      Except.ok ((k', { info with vars := if v ∈ info.vars then info.vars
                                          else info.vars ++ [v] }) :: rest)
    else
      match addVar rest k v with
      | Except.error e => Except.error e
      | Except.ok rest' => Except.ok ((k', info) :: rest')

/-- Step 2 of `make_graph`: the first `for e in datatree._graph.edges` loop,
recording each relationship's `parent_name` into the parent's var set. -/
def addVars (m : List (String × NodeInfo)) :
    List Relationship → Except BuildError (List (String × NodeInfo))
  | [] => Except.ok m
  | r :: rs =>
    match addVar m r.parent_data r.parent_name with
    | Except.error e => Except.error e
    | Except.ok m' => addVars m' rs

/-- `make_graph(datatree)`: seed `g_nodes` (root first), record variables
from the edges, emit one `DiagramNode` per `g_nodes` entry (guarded by the
graph having nodes) and one `DiagramEdge` per edge. -/
def make_graph (t : DataTree) : Except BuildError AGraph :=
  match initNodes t with
  | Except.error e => Except.error e
  | Except.ok m0 =>
    match addVars m0 t.edges with
    | Except.error e => Except.error e
    | Except.ok m =>
      Except.ok
        { nodes := if t.nodes.isEmpty then []
                   else m.map (fun kv => ⟨kv.1, node_label kv.1 kv.2, "plaintext"⟩)
          edges := t.edges.map edgeOfRel }

/-- The dimension name shown in a row's dimension cell, when present. -/
def rowDim : Row → Option String
  | Row.both d _ => some d
  | Row.dimOnly d => some d
  | Row.varOnly _ => none

/-- The variable name shown in a row's variable cell, when present. -/
def rowVar : Row → Option String
  | Row.both _ v => some v
  | Row.dimOnly _ => none
  | Row.varOnly v => some v

/-- All dimension names appearing in a list of rows, in order. -/
def rowDims (rows : List Row) : List String := rows.filterMap rowDim

/-- All variable names appearing in a list of rows, in order. -/
def rowVars (rows : List Row) : List String := rows.filterMap rowVar

/-! ## Lemmas about `zip_longest` and label rows -/

theorem zipLongest_length (ds : List String) :
    ∀ vs, (zipLongest ds vs).length = max ds.length vs.length := by
  induction ds with
  | nil => intro vs; simp [zipLongest]
  | cons d ds ih =>
    intro vs
    cases vs with
    | nil => simp [zipLongest, ih []]
    | cons v vs =>
      simp [zipLongest, ih vs]
      omega

theorem rowDims_cons_some (r : Row) (d : String) (rows : List Row)
    (h : rowDim r = some d) : rowDims (r :: rows) = d :: rowDims rows := by
  simp [rowDims, List.filterMap_cons, h]

theorem rowDims_cons_none (r : Row) (rows : List Row)
    (h : rowDim r = none) : rowDims (r :: rows) = rowDims rows := by
  simp [rowDims, List.filterMap_cons, h]

theorem rowVars_cons_some (r : Row) (v : String) (rows : List Row)
    (h : rowVar r = some v) : rowVars (r :: rows) = v :: rowVars rows := by
  simp [rowVars, List.filterMap_cons, h]

theorem rowVars_cons_none (r : Row) (rows : List Row)
    (h : rowVar r = none) : rowVars (r :: rows) = rowVars rows := by
  simp [rowVars, List.filterMap_cons, h]

theorem rowDim_mkRow (d v : String) (hd : ¬ d = "") :
    rowDim (mkRow (d, v)) = some d := by
  by_cases hv : v = "" <;> simp [mkRow, rowDim, hd, hv]

theorem rowVar_mkRow_fill (d : String) (hd : ¬ d = "") :
    rowVar (mkRow (d, "")) = none := by
  simp [mkRow, rowVar, hd]

theorem rowVar_mkRow (d v : String) (hd : ¬ d = "") (hv : ¬ v = "") :
    rowVar (mkRow (d, v)) = some v := by
  simp [mkRow, rowVar, hd, hv]

theorem rowDims_zip_nil : ∀ vs, rowDims ((zipLongest [] vs).map mkRow) = [] := by
  intro vs
  induction vs with
  | nil => simp [zipLongest, rowDims]
  | cons v vs ih =>
    rw [show zipLongest [] (v :: vs) = ("", v) :: zipLongest [] vs by simp [zipLongest], List.map_cons,
        rowDims_cons_none _ _ (by simp [mkRow, rowDim])]
    exact ih

theorem rowVars_zip_nil : ∀ vs, rowVars ((zipLongest [] vs).map mkRow) = vs := by
  intro vs
  induction vs with
  | nil => simp [zipLongest, rowVars]
  | cons v vs ih =>
    rw [show zipLongest [] (v :: vs) = ("", v) :: zipLongest [] vs by simp [zipLongest], List.map_cons,
        rowVars_cons_some _ v _ (by simp [mkRow, rowVar])]
    exact congrArg (List.cons v) ih

theorem rowDims_zip (ds : List String) :
    ∀ vs, "" ∉ ds → rowDims ((zipLongest ds vs).map mkRow) = ds := by
  induction ds with
  | nil => intro vs _; exact rowDims_zip_nil vs
  | cons d ds ih =>
    intro vs hd
    have hd1 : ¬ d = "" := fun h => hd (by simp [h])
    have hd2 : "" ∉ ds := fun h => hd (List.mem_cons_of_mem _ h)
    cases vs with
    | nil =>
      rw [show zipLongest (d :: ds) [] = (d, "") :: zipLongest ds [] by simp [zipLongest], List.map_cons,
          rowDims_cons_some _ d _ (rowDim_mkRow d "" hd1)]
      exact congrArg (List.cons d) (ih [] hd2)
    | cons v vs =>
      rw [show zipLongest (d :: ds) (v :: vs) = (d, v) :: zipLongest ds vs by simp [zipLongest], List.map_cons,
          rowDims_cons_some _ d _ (rowDim_mkRow d v hd1)]
      exact congrArg (List.cons d) (ih vs hd2)

theorem rowVars_zip (ds : List String) :
    ∀ vs, "" ∉ ds → "" ∉ vs → rowVars ((zipLongest ds vs).map mkRow) = vs := by
  induction ds with
  | nil => intro vs _ _; exact rowVars_zip_nil vs
  | cons d ds ih =>
    intro vs hd hv
    have hd1 : ¬ d = "" := fun h => hd (by simp [h])
    have hd2 : "" ∉ ds := fun h => hd (List.mem_cons_of_mem _ h)
    cases vs with
    | nil =>
      rw [show zipLongest (d :: ds) [] = (d, "") :: zipLongest ds [] by simp [zipLongest], List.map_cons,
          rowVars_cons_none _ _ (rowVar_mkRow_fill d hd1)]
      exact ih [] hd2 (by simp)
    | cons v vs =>
      have hv1 : ¬ v = "" := fun h => hv (by simp [h])
      have hv2 : "" ∉ vs := fun h => hv (List.mem_cons_of_mem _ h)
      rw [show zipLongest (d :: ds) (v :: vs) = (d, v) :: zipLongest ds vs by simp [zipLongest], List.map_cons,
          rowVars_cons_some _ v _ (rowVar_mkRow d v hd1 hv1)]
      exact congrArg (List.cons v) (ih vs hd2 hv2)


theorem rowDims_map_dimOnly (ds : List String) :
    rowDims (ds.map Row.dimOnly) = ds := by
  induction ds with
  | nil => rfl
  | cons d ds ih => simpa [rowDims, rowDim] using ih

theorem rowVars_map_dimOnly (ds : List String) :
    rowVars (ds.map Row.dimOnly) = [] := by
  induction ds with
  | nil => rfl
  | cons d ds ih => simp [rowVars, rowVar]

theorem rowDims_labelRows (dims vars : List String) (hd : "" ∉ dims) :
    rowDims (labelRows dims vars) = dims := by
  cases dims with
  | nil => rfl
  | cons d ds =>
    cases vars with
    | nil => simpa [labelRows] using rowDims_map_dimOnly (d :: ds)
    | cons v vs => simpa [labelRows] using rowDims_zip (d :: ds) (v :: vs) hd

theorem rowVars_labelRows (dims vars : List String) (hd : "" ∉ dims) (hv : "" ∉ vars) :
    rowVars (labelRows dims vars) = if dims = [] then [] else vars := by
  cases dims with
  | nil => rfl
  | cons d ds =>
    cases vars with
    | nil => simpa [labelRows] using rowVars_map_dimOnly (d :: ds)
    | cons v vs => simpa [labelRows] using rowVars_zip (d :: ds) (v :: vs) hd hv

/-! ## Injectivity of the edge key encoding -/

theorem encL_append_inj (s : List Char) :
    ∀ (t x y : List Char), encL s ++ x = encL t ++ y → s = t ∧ x = y := by
  induction s with
  | nil =>
    intro t x y h
    cases t with
    | nil =>
      simp only [encL, List.singleton_append] at h
      injection h with _ h2
      exact ⟨rfl, h2⟩
    | cons d ds =>
      simp only [encL, List.singleton_append, List.cons_append] at h
      injection h with h1 _
      exact absurd h1 (by decide)
  | cons c cs ih =>
    intro t x y h
    cases t with
    | nil =>
      simp only [encL, List.singleton_append, List.cons_append] at h
      injection h with h1 _
      exact absurd h1 (by decide)
    | cons d ds =>
      simp only [encL, List.cons_append] at h
      injection h with _ h2
      injection h2 with h2a h2b
      obtain ⟨ht, hxy⟩ := ih ds x y h2b
      exact ⟨by rw [h2a, ht], hxy⟩

theorem keyStr_injective (r1 r2 : Relationship) (h : r1.keyStr = r2.keyStr) :
    r1 = r2 := by
  obtain ⟨a, b, c, d, e⟩ := r1
  obtain ⟨a', b', c', d', e'⟩ := r2
  have hd : encL a.data ++ (encL b.data ++ (encL c.data ++ (encL d.data ++ encL e.data)))
      = encL a'.data ++ (encL b'.data ++ (encL c'.data ++ (encL d'.data ++ encL e'.data))) :=
    congrArg String.data h
  obtain ⟨h1, hd⟩ := encL_append_inj _ _ _ _ hd
  obtain ⟨h2, hd⟩ := encL_append_inj _ _ _ _ hd
  obtain ⟨h3, hd⟩ := encL_append_inj _ _ _ _ hd
  obtain ⟨h4, hd⟩ := encL_append_inj _ _ _ _ hd
  have h5 := (encL_append_inj _ _ [] [] (by simpa using hd)).1
  simp only [Relationship.mk.injEq]
  exact ⟨String.ext h1, String.ext h2, String.ext h3, String.ext h4, String.ext h5⟩

/-! ## Lemmas about the node-seeding and variable-recording passes -/

theorem seedNode_ok_eq (t : DataTree) (k : String) (n : String × NodeInfo)
    (h : seedNode t k = Except.ok n) :
    ∃ ds, lookupSubspace t k = some ds ∧ n = (k, ⟨ds, []⟩) := by
  unfold seedNode at h
  cases hl : lookupSubspace t k with
  | none => rw [hl] at h; cases h
  | some ds => rw [hl] at h; cases h; exact ⟨ds, rfl, rfl⟩

theorem seedNode_none (t : DataTree) (k : String)
    (h : lookupSubspace t k = none) :
    seedNode t k = Except.error (BuildError.missingNode k) := by
  unfold seedNode; rw [h]

theorem seedOthers_keys (t : DataTree) (l : List String) :
    ∀ ns, seedOthers t l = Except.ok ns →
      ns.map Prod.fst = l.filter (fun k => decide (¬ t.root_node_name = some k)) := by
  induction l with
  | nil =>
    intro ns h
    simp only [seedOthers] at h
    cases h
    simp
  | cons k ks ih =>
    intro ns h
    simp only [seedOthers] at h
    by_cases hr : t.root_node_name = some k
    · rw [if_pos hr] at h
      rw [List.filter_cons_of_neg (by simp [hr])]
      exact ih ns h
    · rw [if_neg hr] at h
      cases hs : seedNode t k with
      | error e => rw [hs] at h; cases h
      | ok n =>
        rw [hs] at h
        cases ho : seedOthers t ks with
        | error e => rw [ho] at h; cases h
        | ok rest =>
          rw [ho] at h
          cases h
          obtain ⟨ds, _, hn⟩ := seedNode_ok_eq t k n hs
          rw [List.filter_cons_of_pos (by simp [hr]), List.map_cons, hn]
          exact congrArg (List.cons k) (ih rest ho)

theorem seedOthers_error (t : DataTree) (k : String)
    (hm : lookupSubspace t k = none) (hr : ¬ t.root_node_name = some k) :
    ∀ l, k ∈ l → ∃ e, seedOthers t l = Except.error e := by
  intro l
  induction l with
  | nil => intro hk; cases hk
  | cons a as ih =>
    intro hk
    simp only [seedOthers]
    by_cases ha : t.root_node_name = some a
    · rw [if_pos ha]
      have hka : k ≠ a := fun hek => hr (hek ▸ ha)
      exact ih ((List.mem_cons.mp hk).resolve_left hka)
    · rw [if_neg ha]
      cases hs : seedNode t a with
      | error e => exact ⟨e, rfl⟩
      | ok n =>
        have hka : k ≠ a := by
          intro hek
          subst hek
          rw [seedNode_none t k hm] at hs
          cases hs
        obtain ⟨e, he⟩ := ih ((List.mem_cons.mp hk).resolve_left hka)
        rw [he]
        exact ⟨e, rfl⟩

theorem initNodes_none_root (t : DataTree) (hne : ¬ t.nodes.isEmpty)
    (hr : t.root_node_name = none) :
    initNodes t = seedOthers t t.nodes := by
  unfold initNodes
  rw [if_neg hne, hr]

theorem initNodes_some_root (t : DataTree) (r : String) (hne : ¬ t.nodes.isEmpty)
    (hr : t.root_node_name = some r) :
    initNodes t =
      match seedNode t r with
      | Except.error e => Except.error e
      | Except.ok n =>
        match seedOthers t t.nodes with
        | Except.error e => Except.error e
        | Except.ok rest => Except.ok (n :: rest) := by
  unfold initNodes
  rw [if_neg hne, hr]

theorem initNodes_keys (t : DataTree) (m : List (String × NodeInfo))
    (h : initNodes t = Except.ok m) :
    m.map Prod.fst =
      if t.nodes.isEmpty then []
      else
        match t.root_node_name with
        | some r => r :: t.nodes.filter (fun k => decide (¬ t.root_node_name = some k))
        | none => t.nodes.filter (fun k => decide (¬ t.root_node_name = some k)) := by
  by_cases he : t.nodes.isEmpty
  · unfold initNodes at h
    rw [if_pos he] at h
    cases h
    simp [he]
  · rw [if_neg he]
    cases hr : t.root_node_name with
    | none =>
      rw [initNodes_none_root t he hr] at h
      have hkeys := seedOthers_keys t t.nodes m h
      rw [hr] at hkeys
      exact hkeys
    | some r =>
      rw [initNodes_some_root t r he hr] at h
      cases hs : seedNode t r with
      | error e => rw [hs] at h; cases h
      | ok n =>
        rw [hs] at h
        cases ho : seedOthers t t.nodes with
        | error e => rw [ho] at h; cases h
        | ok rest =>
          rw [ho] at h
          cases h
          obtain ⟨ds, _, hn⟩ := seedNode_ok_eq t r n hs
          have hkeys := seedOthers_keys t t.nodes rest ho
          rw [hr] at hkeys
          show ((n :: rest).map Prod.fst)
              = r :: t.nodes.filter (fun k => decide (¬ some r = some k))
          rw [List.map_cons, hn]
          exact congrArg (List.cons r) hkeys

theorem initNodes_root_head (t : DataTree) (r : String) (m : List (String × NodeInfo))
    (hr : t.root_node_name = some r) (hne : ¬ t.nodes.isEmpty)
    (h : initNodes t = Except.ok m) :
    ∃ ds, lookupSubspace t r = some ds ∧ m.head? = some (r, ⟨ds, []⟩) := by
  rw [initNodes_some_root t r hne hr] at h
  cases hs : seedNode t r with
  | error e => rw [hs] at h; cases h
  | ok n =>
    rw [hs] at h
    cases ho : seedOthers t t.nodes with
    | error e => rw [ho] at h; cases h
    | ok rest =>
      rw [ho] at h
      cases h
      obtain ⟨ds, hl, hn⟩ := seedNode_ok_eq t r n hs
      exact ⟨ds, hl, by rw [hn]; rfl⟩


theorem initNodes_error (t : DataTree) (k : String) (hk : k ∈ t.nodes)
    (hm : lookupSubspace t k = none) :
    ∃ e, initNodes t = Except.error e := by
  have hne : ¬ t.nodes.isEmpty := by
    cases hn : t.nodes with
    | nil => rw [hn] at hk; cases hk
    | cons a as => simp [hn]
  cases hr : t.root_node_name with
  | none =>
    rw [initNodes_none_root t hne hr]
    exact seedOthers_error t k hm (by rw [hr]; intro h; cases h) t.nodes hk
  | some r =>
    rw [initNodes_some_root t r hne hr]
    by_cases hkr : k = r
    · subst hkr
      rw [seedNode_none t k hm]
      exact ⟨BuildError.missingNode k, rfl⟩
    · cases hs : seedNode t r with
      | error e => exact ⟨e, rfl⟩
      | ok n =>
        obtain ⟨e, he⟩ :=
          seedOthers_error t k hm (by rw [hr]; simpa using Ne.symm hkr) t.nodes hk
        rw [he]
        exact ⟨e, rfl⟩

theorem addVar_keys (k v : String) (m : List (String × NodeInfo)) :
    ∀ m', addVar m k v = Except.ok m' → m'.map Prod.fst = m.map Prod.fst := by
  induction m with
  | nil => intro m' h; cases h
  | cons p rest ih =>
    intro m' h
    obtain ⟨k', info⟩ := p
    simp only [addVar] at h
    by_cases hk : k' = k
    · rw [if_pos hk] at h
      cases h
      simp
    · rw [if_neg hk] at h
      cases ha : addVar rest k v with
      | error e => rw [ha] at h; cases h
      | ok rest' =>
        rw [ha] at h
        cases h
        simp only [List.map_cons]
        exact congrArg (List.cons k') (ih rest' ha)

theorem addVars_keys (es : List Relationship) :
    ∀ m m', addVars m es = Except.ok m' → m'.map Prod.fst = m.map Prod.fst := by
  induction es with
  | nil =>
    intro m m' h
    simp only [addVars] at h
    cases h
    rfl
  | cons r rs ih =>
    intro m m' h
    simp only [addVars] at h
    cases ha : addVar m r.parent_data r.parent_name with
    | error e => rw [ha] at h; cases h
    | ok m1 =>
      rw [ha] at h
      exact (ih m1 m' h).trans (addVar_keys _ _ m m1 ha)

/-! ## Decomposition of `make_graph` -/

theorem make_graph_eq (t : DataTree) (m0 : List (String × NodeInfo))
    (hi : initNodes t = Except.ok m0) :
    make_graph t =
      match addVars m0 t.edges with
      | Except.error e => Except.error e
      | Except.ok m =>
        Except.ok
          { nodes := if t.nodes.isEmpty then []
                     else m.map (fun kv => ⟨kv.1, node_label kv.1 kv.2, "plaintext"⟩)
            edges := t.edges.map edgeOfRel } := by
  unfold make_graph
  rw [hi]

theorem make_graph_ok (t : DataTree) (g : AGraph) (h : make_graph t = Except.ok g) :
    ∃ m0 m, initNodes t = Except.ok m0 ∧ addVars m0 t.edges = Except.ok m ∧
      g.nodes = (if t.nodes.isEmpty then []
                 else m.map (fun kv => ⟨kv.1, node_label kv.1 kv.2, "plaintext"⟩)) ∧
      g.edges = t.edges.map edgeOfRel := by
  cases hi : initNodes t with
  | error e =>
    unfold make_graph at h
    rw [hi] at h
    cases h
  | ok m0 =>
    rw [make_graph_eq t m0 hi] at h
    cases ha : addVars m0 t.edges with
    | error e => rw [ha] at h; cases h
    | ok m =>
      rw [ha] at h
      cases h
      exact ⟨m0, m, rfl, ha, rfl, rfl⟩

theorem make_graph_edges (t : DataTree) (g : AGraph) (h : make_graph t = Except.ok g) :
    g.edges = t.edges.map edgeOfRel := by
  obtain ⟨_, _, _, _, _, he⟩ := make_graph_ok t g h
  exact he

theorem make_graph_of_initNodes_error (t : DataTree) (e : BuildError)
    (h : initNodes t = Except.error e) : make_graph t = Except.error e := by
  unfold make_graph
  rw [h]

theorem nodes_ids (m : List (String × NodeInfo)) :
    (m.map (fun kv => (⟨kv.1, node_label kv.1 kv.2, "plaintext"⟩ : DiagramNode))).map
        DiagramNode.id = m.map Prod.fst := by
  induction m with
  | nil => rfl
  | cons p ps ih => simp only [List.map_cons, ih]

/-! ## Claim C1: attribute-row counts of a rendered label -/

def C1tree : DataTree :=
  { nodes := ["A"]
    edges := [⟨"A", "x", "A", "c", "label"⟩]
    subspaces := [("A", [])]
    root_node_name := none }

/-- Claim C1 is false as stated: in `C1tree` the node `A` has `k = 0`
dimensions and `m = 1` variables (the set containing `x`), but its rendered
label has `0` attribute rows, not `max 0 1 = 1`, and the variable `x`
appears in no row. -/
theorem C1_counterexample :
    initNodes C1tree = Except.ok [("A", ⟨[], []⟩)] ∧
    addVars [("A", ⟨[], []⟩)] C1tree.edges = Except.ok [("A", ⟨[], ["x"]⟩)] ∧
    (make_graph C1tree).map (fun g => g.nodes.map fun n => n.label.rows.length) =
      Except.ok [0] ∧
    max ([] : List String).length (["x"] : List String).length = 1 :=
  ⟨rfl, rfl, rfl, rfl⟩

/-- Claim C1 (amended): for a node whose dimension and variable names are
non-empty strings, if the node has at least one dimension then its label
has exactly `max k m` attribute rows, every dimension and every variable
appears in exactly one row (the row lists of dimension and variable cells
are exactly `dims` and `vars`), and the shorter column contributes the
empty cells; if the node has no dimensions the label has zero attribute
rows regardless of `m`, so its variables are not rendered. -/
theorem C1_label_row_counts (dims vars : List String)
    (hd : "" ∉ dims) (hv : "" ∉ vars) :
    (dims = [] → labelRows dims vars = []) ∧
    (dims ≠ [] → (labelRows dims vars).length = max dims.length vars.length) ∧
    rowDims (labelRows dims vars) = dims ∧
    rowVars (labelRows dims vars) = (if dims = [] then [] else vars) := by
  refine ⟨?_, ?_, rowDims_labelRows dims vars hd, rowVars_labelRows dims vars hd hv⟩
  · intro h
    subst h
    rfl
  · intro hne
    cases dims with
    | nil => exact absurd rfl hne
    | cons d ds =>
      cases vars with
      | nil => simp [labelRows]
      | cons v vs =>
        show ((zipLongest (d :: ds) (v :: vs)).map mkRow).length = _
        rw [List.length_map, zipLongest_length]

/-- Witness for the amended C1 at a concrete node shape. -/
theorem C1_label_row_counts_witness :
    ((["d"] : List String) = [] → labelRows ["d"] ["v1", "v2"] = []) ∧
    ((["d"] : List String) ≠ [] →
      (labelRows ["d"] ["v1", "v2"]).length =
        max (["d"] : List String).length (["v1", "v2"] : List String).length) ∧
    rowDims (labelRows ["d"] ["v1", "v2"]) = ["d"] ∧
    rowVars (labelRows ["d"] ["v1", "v2"]) =
      (if (["d"] : List String) = [] then [] else ["v1", "v2"]) :=
  C1_label_row_counts ["d"] ["v1", "v2"] (by decide) (by decide)

/-! ## Claim C2: the round-trip scenario -/

def C2tree : DataTree :=
  { nodes := ["A", "B"]
    edges := [⟨"A", "idvar", "B", "bid", "label"⟩]
    subspaces := [("A", ["id"]), ("B", ["bid"])]
    root_node_name := none }

/-- Claim C2 is false as stated: in the round-trip scenario the emitted
edge's ports are the strings `varidvar` and `dimbid` (prefix concatenated
directly to the name), not `var:idvar` and `dim:bid`. -/
theorem C2_counterexample :
    (make_graph C2tree).map (fun g => g.edges.map fun e => (e.tailport, e.headport)) =
      Except.ok [("varidvar", "dimbid")] ∧
    ("varidvar" : String) ≠ "var:idvar" ∧ ("dimbid" : String) ≠ "dim:bid" :=
  ⟨rfl, by decide, by decide⟩

/-- Claim C2 (amended): the round-trip scenario produces exactly two nodes
(`A` with variable set containing exactly `idvar`, `B` unchanged) and one
edge from `A` to `B` whose from-port is `varidvar`, whose to-port is
`dimbid`, and whose arrow marker is the hollow diamond `odiamond`. -/
theorem C2_round_trip :
    make_graph C2tree =
      Except.ok
        { nodes := [⟨"A", node_label "A" ⟨["id"], ["idvar"]⟩, "plaintext"⟩,
                    ⟨"B", node_label "B" ⟨["bid"], []⟩, "plaintext"⟩]
          edges := [{ from_node := "A", to_node := "B",
                      key := Relationship.keyStr ⟨"A", "idvar", "B", "bid", "label"⟩,
                      tailport := "varidvar", headport := "dimbid",
                      dir := "forward", arrowhead := "odiamond" }] } ∧
    node_label "A" ⟨["id"], ["idvar"]⟩ =
      ⟨"A", "f0", LabelHeader.dimsAndVars, [Row.both "id" "idvar"]⟩ ∧
    node_label "B" ⟨["bid"], []⟩ =
      ⟨"B", "f0", LabelHeader.dimsOnly, [Row.dimOnly "bid"]⟩ :=
  ⟨rfl, by decide, by decide⟩

/-! ## Claim C3: arrow style determined by the indexing mode -/

/-- Claim C3: an emitted edge's arrow marker is the hollow diamond
`odiamond` exactly when the relationship's indexing is `label`, and is the
plain arrowhead `normal` when the indexing is `position`. -/
theorem C3_arrow_style_iff (r : Relationship) :
    ((edgeOfRel r).arrowhead = "odiamond" ↔ r.indexing = "label") ∧
    (r.indexing = "position" → (edgeOfRel r).arrowhead = "normal") := by
  by_cases h : r.indexing = "label"
  · refine ⟨⟨fun _ => h, fun _ => by simp [edgeOfRel, h]⟩, fun hp => ?_⟩
    rw [hp] at h
    exact absurd h (by decide)
  · refine ⟨⟨fun hod => ?_, fun hl => absurd hl h⟩, fun _ => by simp [edgeOfRel, h]⟩
    have hn : (edgeOfRel r).arrowhead = "normal" := by simp [edgeOfRel, h]
    rw [hn] at hod
    exact absurd hod (by decide)

/-- Witness for C3: both arrow-style branches are reachable. -/
theorem C3_arrow_style_witness :
    (edgeOfRel ⟨"A", "v", "B", "d", "label"⟩).arrowhead = "odiamond" ∧
    (edgeOfRel ⟨"A", "v", "B", "d", "position"⟩).arrowhead = "normal" :=
  ⟨(C3_arrow_style_iff ⟨"A", "v", "B", "d", "label"⟩).1.mpr rfl,
   (C3_arrow_style_iff ⟨"A", "v", "B", "d", "position"⟩).2 rfl⟩

/-! ## Claim C4: unknown indexing values -/

def C4tree : DataTree :=
  { nodes := ["A", "B"]
    edges := [⟨"A", "v", "B", "d", "banana"⟩]
    subspaces := [("A", ["a"]), ("B", ["d"])]
    root_node_name := none }

def C4graph : AGraph :=
  { nodes := [⟨"A", node_label "A" ⟨["a"], ["v"]⟩, "plaintext"⟩,
              ⟨"B", node_label "B" ⟨["d"], []⟩, "plaintext"⟩]
    edges := [edgeOfRel ⟨"A", "v", "B", "d", "banana"⟩] }

/-- Claim C4 is false as stated: a relationship whose indexing `banana` is
neither `label` nor `position` does not make the build fail; `make_graph`
succeeds and silently gives the edge the plain arrowhead `normal`. -/
theorem C4_counterexample :
    make_graph C4tree = Except.ok C4graph ∧
    (edgeOfRel ⟨"A", "v", "B", "d", "banana"⟩).arrowhead = "normal" ∧
    ("banana" : String) ≠ "label" ∧ ("banana" : String) ≠ "position" :=
  ⟨rfl, rfl, by decide, by decide⟩

/-- Claim C4 (amended): a relationship whose indexing is not `label`
(in particular any value outside the supported set) does not abort the
build; its edge is emitted with the plain arrowhead `normal`, exactly as
for `position`. -/
theorem C4_unknown_indexing_defaults (t : DataTree) (g : AGraph) (r : Relationship)
    (hg : make_graph t = Except.ok g) (hr : r ∈ t.edges)
    (h : ¬ r.indexing = "label") :
    edgeOfRel r ∈ g.edges ∧ (edgeOfRel r).arrowhead = "normal" := by
  refine ⟨?_, by simp [edgeOfRel, h]⟩
  rw [make_graph_edges t g hg]
  exact List.mem_map_of_mem edgeOfRel hr

/-- Witness for the amended C4 at the concrete `banana` relationship. -/
theorem C4_unknown_indexing_witness :
    edgeOfRel ⟨"A", "v", "B", "d", "banana"⟩ ∈ C4graph.edges ∧
    (edgeOfRel ⟨"A", "v", "B", "d", "banana"⟩).arrowhead = "normal" :=
  C4_unknown_indexing_defaults C4tree C4graph ⟨"A", "v", "B", "d", "banana"⟩
    rfl (by decide) (by decide)

/-! ## Claim C5: a relationship's child dataset missing from the subspaces -/

def C5tree : DataTree :=
  { nodes := ["A", "B"]
    edges := [⟨"A", "v", "B", "d", "label"⟩]
    subspaces := [("A", ["a"])]
    root_node_name := none }

/-- Claim C5: when a relationship's `child_data` is not a key of the
subspace mapping, the build fails with a missing-node error and produces
no diagram.  The hypothesis `hclosed` models the graph-library invariant
that every edge endpoint is also a graph node. -/
theorem C5_missing_child_aborts (t : DataTree) (r : Relationship)
    (hr : r ∈ t.edges)
    (hclosed : ∀ r' ∈ t.edges, r'.parent_data ∈ t.nodes ∧ r'.child_data ∈ t.nodes)
    (hm : lookupSubspace t r.child_data = none) :
    ∃ k, make_graph t = Except.error (BuildError.missingNode k) := by
  obtain ⟨e, he⟩ := initNodes_error t r.child_data (hclosed r hr).2 hm
  cases e with
  | missingNode k => exact ⟨k, make_graph_of_initNodes_error t _ he⟩

/-- Witness for C5: in `C5tree`, dataset `B` is referenced by the only
relationship but absent from the subspace mapping, and the build fails. -/
theorem C5_missing_child_witness :
    ∃ k, make_graph C5tree = Except.error (BuildError.missingNode k) :=
  C5_missing_child_aborts C5tree ⟨"A", "v", "B", "d", "label"⟩
    (by decide) (by decide) rfl

/-! ## Claim C6: root seeding -/

def C6tree : DataTree :=
  { nodes := ["R", "A"]
    edges := []
    subspaces := [("R", ["r"]), ("A", ["a"])]
    root_node_name := some "R" }

/-- Claim C6: with a designated root, nothing (in particular not the root)
is seeded when the graph has no nodes; when the graph has nodes, the root
appears exactly once among the emitted nodes, and it is seeded first with
an empty variable set and its subspace dimensions. -/
theorem C6_root_seeding (t : DataTree) (r : String)
    (hroot : t.root_node_name = some r) :
    (t.nodes = [] → initNodes t = Except.ok []) ∧
    (t.nodes ≠ [] → ∀ g, make_graph t = Except.ok g →
      (g.nodes.map DiagramNode.id).count r = 1) ∧
    (t.nodes ≠ [] → ∀ m, initNodes t = Except.ok m →
      ∃ ds, lookupSubspace t r = some ds ∧ m.head? = some (r, ⟨ds, []⟩)) := by
  refine ⟨?_, ?_, ?_⟩
  · intro h
    unfold initNodes
    rw [if_pos (by simp [h])]
  · intro hne g hg
    obtain ⟨m0, m, hi, ha, hnodes, _⟩ := make_graph_ok t g hg
    have hempty : ¬ t.nodes.isEmpty := by
      cases hn : t.nodes with
      | nil => exact absurd hn hne
      | cons a as => simp [hn]
    rw [hnodes, if_neg hempty, nodes_ids, addVars_keys t.edges m0 m ha,
        initNodes_keys t m0 hi, if_neg hempty]
    simp only [hroot]
    rw [List.count_cons_self]
    have hnot : r ∉ t.nodes.filter (fun k => decide (¬ (some r : Option String) = some k)) := by
      intro hmem
      have h2 := (List.mem_filter.mp hmem).2
      simp at h2
    rw [List.count_eq_zero.mpr hnot]
  · intro hne m hi
    have hempty : ¬ t.nodes.isEmpty := by
      cases hn : t.nodes with
      | nil => exact absurd hn hne
      | cons a as => simp [hn]
    exact initNodes_root_head t r m hroot hempty hi

/-- Witness for C6 on `C6tree`: the root `R` is rendered exactly once and
is seeded first with its dimensions and no variables. -/
theorem C6_root_seeding_witness :
    ((AGraph.mk [⟨"R", node_label "R" ⟨["r"], []⟩, "plaintext"⟩,
                 ⟨"A", node_label "A" ⟨["a"], []⟩, "plaintext"⟩] []).nodes.map
        DiagramNode.id).count "R" = 1 ∧
    (∃ ds, lookupSubspace C6tree "R" = some ds ∧
      ([("R", (⟨["r"], []⟩ : NodeInfo)), ("A", ⟨["a"], []⟩)].head?) =
        some ("R", ⟨ds, []⟩)) :=
  ⟨(C6_root_seeding C6tree "R" rfl).2.1 (by decide) _ rfl,
   (C6_root_seeding C6tree "R" rfl).2.2 (by decide) _ rfl⟩

/-! ## Claim C7: which datasets are rendered -/

def C7tree : DataTree :=
  { nodes := ["A"]
    edges := []
    subspaces := [("A", ["d"])]
    root_node_name := none }

/-- Claim C7 is false as stated: in `C7tree` the dataset `A` participates
in no edge and is not a root, yet it is rendered as a DiagramNode. -/
theorem C7_counterexample :
    (make_graph C7tree).map (fun g => g.nodes.map DiagramNode.id) = Except.ok ["A"] ∧
    C7tree.edges = [] ∧ C7tree.root_node_name = none :=
  ⟨rfl, rfl, rfl⟩

/-- Claim C7 (amended): the rendered node set is exactly the graph's node
set plus the designated root: the root first, then every non-root graph
node in iteration order; membership in an edge is irrelevant. -/
theorem C7_rendered_nodes (t : DataTree) (g : AGraph)
    (h : make_graph t = Except.ok g) :
    g.nodes.map DiagramNode.id =
      if t.nodes.isEmpty then []
      else
        match t.root_node_name with
        | some r => r :: t.nodes.filter (fun k => decide (¬ t.root_node_name = some k))
        | none => t.nodes := by
  obtain ⟨m0, m, hi, ha, hnodes, _⟩ := make_graph_ok t g h
  by_cases he : t.nodes.isEmpty
  · simp [hnodes, he]
  · rw [hnodes, if_neg he, nodes_ids, addVars_keys t.edges m0 m ha,
        initNodes_keys t m0 hi, if_neg he, if_neg he]
    cases hr : t.root_node_name with
    | none =>
      simp only [hr]
      simp
    | some r => simp only [hr]

/-- Witness for the amended C7 on `C7tree`. -/
theorem C7_rendered_nodes_witness :
    (AGraph.mk [⟨"A", node_label "A" ⟨["d"], []⟩, "plaintext"⟩] []).nodes.map
        DiagramNode.id =
      (if C7tree.nodes.isEmpty then []
       else
         match C7tree.root_node_name with
         | some r =>
             r :: C7tree.nodes.filter (fun k => decide (¬ C7tree.root_node_name = some k))
         | none => C7tree.nodes) :=
  C7_rendered_nodes C7tree _ rfl

/-! ## Claim C8: edge keys -/

def C8tree : DataTree :=
  { nodes := ["A", "B"]
    edges := [⟨"A", "v1", "B", "d", "label"⟩, ⟨"A", "v2", "B", "d", "label"⟩]
    subspaces := [("A", ["a"]), ("B", ["d"])]
    root_node_name := none }

def C8graph : AGraph :=
  { nodes := [⟨"A", node_label "A" ⟨["a"], ["v1", "v2"]⟩, "plaintext"⟩,
              ⟨"B", node_label "B" ⟨["d"], []⟩, "plaintext"⟩]
    edges := [edgeOfRel ⟨"A", "v1", "B", "d", "label"⟩,
              edgeOfRel ⟨"A", "v2", "B", "d", "label"⟩] }

/-- Claim C8: distinct relationships always receive distinct edge keys,
including parallel edges between the same endpoints, and a relationship's
key is a pure function of the relationship itself (stability). -/
theorem C8_edge_keys (t : DataTree) (g : AGraph) (r1 r2 : Relationship)
    (hg : make_graph t = Except.ok g) (h1 : r1 ∈ t.edges) (h2 : r2 ∈ t.edges)
    (hne : r1 ≠ r2) :
    edgeOfRel r1 ∈ g.edges ∧ edgeOfRel r2 ∈ g.edges ∧
    (edgeOfRel r1).key = r1.keyStr ∧
    (edgeOfRel r1).key ≠ (edgeOfRel r2).key := by
  rw [make_graph_edges t g hg]
  refine ⟨List.mem_map_of_mem _ h1, List.mem_map_of_mem _ h2, rfl, ?_⟩
  intro hk
  exact hne (keyStr_injective r1 r2 hk)

/-- Witness for C8 on two parallel relationships between `A` and `B`. -/
theorem C8_edge_keys_witness :
    edgeOfRel ⟨"A", "v1", "B", "d", "label"⟩ ∈ C8graph.edges ∧
    edgeOfRel ⟨"A", "v2", "B", "d", "label"⟩ ∈ C8graph.edges ∧
    (edgeOfRel ⟨"A", "v1", "B", "d", "label"⟩).key =
      Relationship.keyStr ⟨"A", "v1", "B", "d", "label"⟩ ∧
    (edgeOfRel ⟨"A", "v1", "B", "d", "label"⟩).key ≠
      (edgeOfRel ⟨"A", "v2", "B", "d", "label"⟩).key :=
  C8_edge_keys C8tree C8graph ⟨"A", "v1", "B", "d", "label"⟩
    ⟨"A", "v2", "B", "d", "label"⟩ rfl (by decide) (by decide) (by decide)

/-! ## Claim C9: determinism of the variable enumeration -/

/-- Claim C9 is false as stated: the label of a node depends on the
enumeration order of its variable set.  The two lists below present the
same set of variable names (they are permutations of each other), yet the
rendered labels differ, so a run in which the Python set iterates
`a` before `b` and a run in which it iterates `b` before `a` produce
different output for the same input graph. -/
theorem C9_counterexample :
    (["a", "b"] : List String).Perm ["b", "a"] ∧
    node_label "A" ⟨["d1", "d2"], ["a", "b"]⟩ ≠
      node_label "A" ⟨["d1", "d2"], ["b", "a"]⟩ :=
  ⟨List.Perm.swap "b" "a" [], by decide⟩

/-- The variable cells produced by the fill rows of a label whose
dimension list is longer than its variable list: once the variables are
exhausted (after position `m`), a pair `(d, "")` is rendered as a
variable-only row exactly when `d` is itself the empty string (the
source's fill-value check `if _d == "":` fires first).  This list depends
only on the dimension list and on the number `m` of variables, not on the
variables themselves. -/
def fillVars : List String → Nat → List String
  | [], _ => []
  | d :: ds, 0 => (if d = "" then [""] else []) ++ fillVars ds 0
  | _ :: ds, Nat.succ m => fillVars ds m

theorem rowVars_zip_fill (ds : List String) :
    ∀ vs, "" ∉ vs →
      rowVars ((zipLongest ds vs).map mkRow) = vs ++ fillVars ds vs.length := by
  induction ds with
  | nil =>
    intro vs _
    rw [rowVars_zip_nil vs]
    simp [fillVars]
  | cons d ds ih =>
    intro vs hv
    cases vs with
    | nil =>
      rw [show zipLongest (d :: ds) [] = (d, "") :: zipLongest ds [] by simp [zipLongest],
          List.map_cons]
      by_cases hd : d = ""
      · rw [rowVars_cons_some _ "" _ (by simp [mkRow, rowVar, hd]), ih [] (by simp)]
        simp [fillVars, hd]
      · rw [rowVars_cons_none _ _ (rowVar_mkRow_fill d hd), ih [] (by simp)]
        simp [fillVars, hd]
    | cons v vs' =>
      have hv1 : ¬ v = "" := fun h => hv (by simp [h])
      have hv2 : "" ∉ vs' := fun h => hv (List.mem_cons_of_mem _ h)
      rw [show zipLongest (d :: ds) (v :: vs') = (d, v) :: zipLongest ds vs' by
            simp [zipLongest],
          List.map_cons,
          rowVars_cons_some _ v _ (by by_cases hd : d = "" <;> simp [mkRow, rowVar, hd, hv1]),
          ih vs' hv2]
      simp [fillVars]

theorem rowVars_labelRows_fill (dims vars : List String) (hv : "" ∉ vars) :
    rowVars (labelRows dims vars) =
      if dims = [] then []
      else if vars = [] then [] else vars ++ fillVars dims vars.length := by
  cases dims with
  | nil => rfl
  | cons d ds =>
    cases vars with
    | nil => simpa [labelRows] using rowVars_map_dimOnly (d :: ds)
    | cons v vs =>
      show rowVars ((zipLongest (d :: ds) (v :: vs)).map mkRow) = _
      rw [rowVars_zip_fill (d :: ds) (v :: vs) hv]
      simp

/-- Claim C9 (amended): the build output is deterministic only up to the
enumeration order of each node's variable set: the order in which a label
lists the variables follows the iteration order of a Python set of
strings, which is not fixed across runs, so row order can differ between
runs (see the counterexample); but provided the node's variable names are
non-empty strings, the collection of variable names rendered in the label
is the same, as a permutation, for any two enumeration orders of the same
variable set, whatever the dimension list.  The non-empty-name condition
is necessary: an empty-string variable name is indistinguishable from the
`zip_longest` fill value, and whether it is rendered then itself depends
on the enumeration order. -/
theorem C9_vars_multiset_deterministic (dims vs1 vs2 : List String)
    (h1 : "" ∉ vs1) (hp : vs1.Perm vs2) :
    (rowVars (labelRows dims vs1)).Perm (rowVars (labelRows dims vs2)) := by
  have h2 : "" ∉ vs2 := fun hm => h1 (hp.mem_iff.mpr hm)
  rw [rowVars_labelRows_fill dims vs1 h1, rowVars_labelRows_fill dims vs2 h2]
  by_cases hdim : dims = []
  · rw [if_pos hdim, if_pos hdim]
  · rw [if_neg hdim, if_neg hdim]
    by_cases hv : vs1 = []
    · have hv2 : vs2 = [] := List.length_eq_zero.mp (by rw [← hp.length_eq, hv]; rfl)
      rw [if_pos hv, if_pos hv2]
    · have hv2 : ¬ vs2 = [] := fun h => hv (List.length_eq_zero.mp (by rw [hp.length_eq, h]; rfl))
      rw [if_neg hv, if_neg hv2, hp.length_eq]
      exact hp.append (List.Perm.refl _)

/-- Witness for the amended C9 at a concrete node shape; the dimension
list deliberately contains an empty name, which the theorem permits. -/
theorem C9_vars_multiset_witness :
    (rowVars (labelRows [""] ["x", "y"])).Perm (rowVars (labelRows [""] ["y", "x"])) :=
  C9_vars_multiset_deterministic [""] ["x", "y"] ["y", "x"] (by decide)
    (List.Perm.swap "y" "x" [])

/-! ## Claim C10: every graph node's subspace is looked up -/

def C10tree : DataTree :=
  { nodes := ["A"]
    edges := []
    subspaces := []
    root_node_name := none }

/-- Claim C10: every identifier yielded by the graph's node iteration is
looked up in the subspace mapping, so a graph node absent from the mapping
aborts the build with a missing-key failure even when no relationship
references it. -/
theorem C10_node_subspace_lookup (t : DataTree) (k : String)
    (hk : k ∈ t.nodes) (hm : lookupSubspace t k = none) :
    ∃ kmiss, make_graph t = Except.error (BuildError.missingNode kmiss) := by
  obtain ⟨e, he⟩ := initNodes_error t k hk hm
  cases e with
  | missingNode k0 => exact ⟨k0, make_graph_of_initNodes_error t _ he⟩

/-- Witness for C10: `C10tree` has the edge-free node `A` with no subspace
entry, and the build fails. -/
theorem C10_node_subspace_lookup_witness :
    ∃ kmiss, make_graph C10tree = Except.error (BuildError.missingNode kmiss) :=
  C10_node_subspace_lookup C10tree "A" (by decide) rfl
